import Mathlib

/-!
# Verification of `pycmark.inlineparser.link_processors`

A shallow embedding of the link/image closer machinery of pycmark's inline
parser (`link_processors.py`), together with proofs about the bracket
deactivation rule, the failure/backtracking discipline of the closer
processors, the priority ladder, and the destination/title/label
sub-parsers.

Strings are modelled as `List Char`; the mutable docutils element tree is
modelled by explicit state passing over a list of inline nodes.  Object
identity of a bracket node inside the stream is rendered as its index in
the stream (bracket nodes record distinct source positions, so the two
notions coincide).
-/

/-! ## Character classes -/

/-- The backslash character (spelled via its code point). -/
def bsC : Char := Char.ofNat 92

/-- The double-quote character. -/
def dqC : Char := Char.ofNat 34

/-- The single-quote character. -/
def sqC : Char := Char.ofNat 39

/-- Modelled from the spec: the escapable characters of the external
`pycmark.utils.ESCAPED_CHARS` pattern (generic text-escaping rules are an
external collaborator).  An escape sequence is a backslash followed by an
ASCII punctuation character. -/
def isPunct (c : Char) : Bool :=
  (33 ≤ c.toNat && c.toNat ≤ 47) || (58 ≤ c.toNat && c.toNat ≤ 64) ||
  (91 ≤ c.toNat && c.toNat ≤ 96) || (123 ≤ c.toNat && c.toNat ≤ 126)

/-- Python's `\s` class over ASCII: space, tab, newline, carriage return,
vertical tab, form feed. -/
def isPySpace (c : Char) : Bool :=
  c = ' ' || c = Char.ofNat 9 || c = Char.ofNat 10 ||
  c = Char.ofNat 13 || c = Char.ofNat 11 || c = Char.ofNat 12

/-! ## External decoding collaborators -/

/-- Length of the leading run of characters satisfying `p`. -/
def countWhile (p : Char → Bool) : List Char → Nat
  | [] => 0
  | c :: rest => if p c then countWhile p rest + 1 else 0

/-- Modelled from the spec: `unescape_backslashes` (the external
`pycmark.utils.unescape`): each escape sequence (backslash followed by an
ASCII punctuation character) is replaced by its second character; any
other backslash is kept literally. -/
def unescape : List Char → List Char
  | [] => []
  | [c] => [c]
  | c :: c2 :: rest2 =>
    if c = bsC then
      if isPunct c2 then c2 :: unescape rest2 else c :: unescape (c2 :: rest2)
    else c :: unescape (c2 :: rest2)

/-- Leading run of decimal digits of a character list, with the remainder. -/
def decDigits : List Char → List Char × List Char
  | [] => ([], [])
  | c :: rest =>
    if c.isDigit then
      let p := decDigits rest
      (c :: p.1, p.2)
    else ([], c :: rest)

/-- Numeric value of a digit string. -/
def digitsVal (l : List Char) : Nat :=
  l.foldl (fun acc c => 10 * acc + (c.toNat - 48)) 0

/-- Fuelled scanner behind `entityDecode`; the fuel dominates the input
length, so the `0` case is never reached from `entityDecode`. -/
def entityDecodeGo : Nat → List Char → List Char
  | 0, s => s
  | fuel + 1, s =>
    match s with
    | '&' :: '#' :: rest =>
      match decDigits rest with
      | ([], _) => '&' :: '#' :: entityDecodeGo fuel rest
      | (d :: ds, r) =>
        match r with
        | ';' :: r2 => Char.ofNat (digitsVal (d :: ds)) :: entityDecodeGo fuel r2
        | _ => '&' :: '#' :: entityDecodeGo fuel rest
    | c :: rest => c :: entityDecodeGo fuel rest
    | [] => []

/-- Modelled from the spec: `decode_entities` (the external
`entitytrans._unescape`), restricted to decimal numeric character
references `&#N;`; named references are out of scope of the properties
proved here and behave analogously. -/
def entityDecode (s : List Char) : List Char :=
  entityDecodeGo s.length s

/-- Hexadecimal digit for a value below 16, upper case. -/
def hexDigit (n : Nat) : Char :=
  if n < 10 then Char.ofNat (48 + n) else Char.ofNat (55 + n)

/-- Characters the URI normalizer percent-encodes. -/
def needsPct (c : Char) : Bool :=
  c.toNat < 33 || c.toNat > 126 || c = dqC || c = '<' || c = '>' ||
  c = bsC || c = Char.ofNat 94 || c = Char.ofNat 96 ||
  c = Char.ofNat 123 || c = Char.ofNat 124 || c = Char.ofNat 125

/-- Percent-encoding of one character (code point below 256). -/
def pctEncode (c : Char) : List Char :=
  ['%', hexDigit (c.toNat / 16 % 16), hexDigit (c.toNat % 16)]

/-- Modelled from the spec: `normalize_uri` percent-encodes unsafe
characters of a destination string and is stable on already-encoded
input. -/
def normalize_uri (s : List Char) : List Char :=
  s.flatMap (fun c => if needsPct c then pctEncode c else [c])

/-- Collapse every maximal run of whitespace characters to a single
space. -/
def squashWs : List Char → List Char
  | [] => []
  | c :: rest =>
    let r := squashWs rest
    if isPySpace c then
      match r with
      | ' ' :: _ => r
      | _ => ' ' :: r
    else c :: r

/-- Drop spaces at both ends. -/
def trimSp (s : List Char) : List Char :=
  ((s.dropWhile (fun c => c = ' ')).reverse.dropWhile (fun c => c = ' ')).reverse

/-- Modelled from the spec: `normalize_link_label` (external
`pycmark.utils.normalize_link_label`) folds case, collapses internal
whitespace runs to single spaces and trims. -/
def normalize_link_label (s : List Char) : List Char :=
  trimSp (squashWs (s.map Char.toLower))

/-! ## Reader -/

/-- The `TextReader` cursor: the full subject and an absolute position. -/
structure TextReader where
  subject : List Char
  position : Nat
deriving DecidableEq, Repr

/-- Remaining text after the cursor (`reader.remain`). -/
def TextReader.remain (r : TextReader) : List Char := r.subject.drop r.position

/-- Advance the cursor by `n` characters (`reader.step`). -/
def TextReader.advance (r : TextReader) (n : Nat) : TextReader :=
  ⟨r.subject, r.position + n⟩

/-- Absolute slicing between two historical positions (`reader[a:b]`). -/
def TextReader.slice (r : TextReader) (a b : Nat) : List Char :=
  (r.subject.take b).drop a

/-- Consume a single expected character when it is next (`reader.consume`
with a one-character pattern; no match leaves the cursor in place). -/
def consumeCh (c : Char) (r : TextReader) : TextReader :=
  match r.remain with
  | c0 :: _ => if c0 = c then r.advance 1 else r
  | [] => r

/-- Consume a two-character pattern such as `](` or `][`. -/
def consume2 (a b : Char) (r : TextReader) : TextReader :=
  match r.remain with
  | c0 :: c1 :: _ => if c0 = a && c1 = b then r.advance 2 else r
  | _ => r

/-- Consume the pattern `[ \n]*` (always succeeds). -/
def skipSpNl (r : TextReader) : TextReader :=
  r.advance (countWhile (fun c => c = ' ' || c = Char.ofNat 10) r.remain)

/-- Consume the pattern `\s*\)`, reporting failure without moving. -/
def consumeWsClose (r : TextReader) : Option TextReader :=
  let n := countWhile isPySpace r.remain
  match r.remain.drop n with
  | c :: _ => if c = ')' then some (r.advance (n + 1)) else none
  | [] => none

/-! ## Inline nodes -/

/-- Inline nodes of the output stream: text, unresolved bracket markers
(`addnodes.bracket`), resolved references and images. -/
inductive Node where
  | text (s : List Char)
  | bracket (marker : List Char) (canOpen : Bool) (active : Bool) (position : Nat)
  | reference (refuri : Option (List Char)) (reftitle : Option (List Char))
      (children : List Node)
  | image (uri : Option (List Char)) (alt : List Char) (title : Option (List Char))

mutual

/-- Decidable equality on inline nodes (spelled out because the automatic
derivation does not handle the nested `List Node` field). -/
def Node.decEq : (a b : Node) → Decidable (a = b)
  | .text s, .text t =>
    if h : s = t then isTrue (by rw [h])
    else isFalse (fun hh => by cases hh; exact h rfl)
  | .text _, .bracket _ _ _ _ => isFalse (fun h => Node.noConfusion h)
  | .text _, .reference _ _ _ => isFalse (fun h => Node.noConfusion h)
  | .text _, .image _ _ _ => isFalse (fun h => Node.noConfusion h)
  | .bracket _ _ _ _, .text _ => isFalse (fun h => Node.noConfusion h)
  | .bracket m c a p, .bracket m2 c2 a2 p2 =>
    if h : m = m2 ∧ c = c2 ∧ a = a2 ∧ p = p2 then
      isTrue (by rw [h.1, h.2.1, h.2.2.1, h.2.2.2])
    else isFalse (fun hh => by cases hh; exact h ⟨rfl, rfl, rfl, rfl⟩)
  | .bracket _ _ _ _, .reference _ _ _ => isFalse (fun h => Node.noConfusion h)
  | .bracket _ _ _ _, .image _ _ _ => isFalse (fun h => Node.noConfusion h)
  | .reference _ _ _, .text _ => isFalse (fun h => Node.noConfusion h)
  | .reference _ _ _, .bracket _ _ _ _ => isFalse (fun h => Node.noConfusion h)
  | .reference u t cs, .reference u2 t2 cs2 =>
    if h : u = u2 ∧ t = t2 then
      match Node.decEqList cs cs2 with
      | isTrue h3 => isTrue (by rw [h.1, h.2, h3])
      | isFalse h3 => isFalse (fun hh => by cases hh; exact h3 rfl)
    else isFalse (fun hh => by cases hh; exact h ⟨rfl, rfl⟩)
  | .reference _ _ _, .image _ _ _ => isFalse (fun h => Node.noConfusion h)
  | .image _ _ _, .text _ => isFalse (fun h => Node.noConfusion h)
  | .image _ _ _, .bracket _ _ _ _ => isFalse (fun h => Node.noConfusion h)
  | .image _ _ _, .reference _ _ _ => isFalse (fun h => Node.noConfusion h)
  | .image u a t, .image u2 a2 t2 =>
    if h : u = u2 ∧ a = a2 ∧ t = t2 then
      isTrue (by rw [h.1, h.2.1, h.2.2])
    else isFalse (fun hh => by cases hh; exact h ⟨rfl, rfl, rfl⟩)

/-- Decidable equality on lists of inline nodes. -/
def Node.decEqList : (a b : List Node) → Decidable (a = b)
  | [], [] => isTrue rfl
  | [], _ :: _ => isFalse (fun h => List.noConfusion h)
  | _ :: _, [] => isFalse (fun h => List.noConfusion h)
  | a :: as, b :: bs =>
    match Node.decEq a b with
    | isTrue h1 =>
      match Node.decEqList as bs with
      | isTrue h2 => isTrue (by rw [h1, h2])
      | isFalse h2 => isFalse (fun hh => by cases hh; exact h2 rfl)
    | isFalse h1 => isFalse (fun hh => by cases hh; exact h1 rfl)

end

instance : DecidableEq Node := Node.decEq

/-- A reference target registered by the external definitions pass:
destination and optional title. -/
structure RefTarget where
  refuri : Option (List Char)
  title : Option (List Char)
deriving DecidableEq, Repr

/-- The reference table: normalized labels to targets (`document.nameids`
composed with `document.ids`). -/
def Table := List (List Char × RefTarget)

/-- `lookup_target`: normalize the label and look it up; `none` models the
`LabelNotMatched` exception. -/
def lookup_target (table : Table) (refname : List Char) : Option RefTarget :=
  (List.find? (fun e => e.1 = normalize_link_label refname) table).map (fun e => e.2)

/-! ## Destination parser (`LinkDestinationParser`) -/

/-- The body of the angle-bracket destination pattern
`\s*<((?:[^<>\n\\]|ESCAPED_CHARS)*)>`: scan the content atoms (any
character other than `<`, `>`, newline, backslash; or an escape
sequence) up to the closing `>`.  Returns the raw content and the rest
after `>`, or `none` when the pattern cannot match. -/
def angleScan : List Char → Option (List Char × List Char)
  | [] => none
  | c :: rest =>
    if c = '>' then some ([], rest)
    else if c = '<' || c = Char.ofNat 10 then none
    else if c = bsC then
      match rest with
      | c2 :: rest2 =>
        if isPunct c2 then
          (angleScan rest2).map (fun q => (c :: c2 :: q.1, q.2))
        else none
      | [] => none
    else (angleScan rest).map (fun q => (c :: q.1, q.2))

/-- `reader.consume` of the angle-bracket destination pattern: leading
`\s*`, a `<`, the scanned content, the closing `>`.  `none` leaves the
cursor in place. -/
def consumeAngle (r : TextReader) : Option (List Char × TextReader) :=
  let n := countWhile isPySpace r.remain
  match r.remain.drop n with
  | c :: rest =>
    if c = '<' then
      match angleScan rest with
      | some (content, _) => some (content, r.advance (n + 1 + content.length + 1))
      | none => none
    else none
  | [] => none

/-- `LinkDestinationParser.normalize_link_destination`: entity-decode,
then unescape backslash escapes, then URI-normalize. -/
def normalize_link_destination (s : List Char) : List Char :=
  normalize_uri (unescape (entityDecode s))

/-- The scanning loop of `parseBareLinkDestination`: given the running
parenthesis depth, consume characters up to the first space/newline or
the first `)` that would take the depth negative; an escape sequence
consumes one extra character.  Returns the consumed run, the rest, and
the final depth. -/
def bareScan : Nat → List Char → List Char × List Char × Nat
  | p, [] => ([], [], p)
  | p, [c] =>
    if c = ' ' || c = Char.ofNat 10 then ([], [c], p)
    else if c = '(' then ([c], [], p + 1)
    else if c = ')' then
      if p = 0 then ([], [c], p) else ([c], [], p - 1)
    else ([c], [], p)
  | p, c :: c2 :: s2 =>
    if c = ' ' || c = Char.ofNat 10 then ([], c :: c2 :: s2, p)
    else if c = '(' then
      let q := bareScan (p + 1) (c2 :: s2)
      (c :: q.1, q.2.1, q.2.2)
    else if c = ')' then
      if p = 0 then ([], c :: c2 :: s2, p)
      else
        let q := bareScan (p - 1) (c2 :: s2)
        (c :: q.1, q.2.1, q.2.2)
    else if c = bsC && isPunct c2 then
      let q := bareScan p s2
      (c :: c2 :: q.1, q.2.1, q.2.2)
    else
      let q := bareScan p (c2 :: s2)
      (c :: q.1, q.2.1, q.2.2)

/-- `LinkDestinationParser.parseBareLinkDestination`: consume `[ \n]*`;
an empty remainder yields the absent destination (`None`); otherwise scan
the bare destination and normalize it. -/
def parseBareLinkDestination (r : TextReader) : Option (List Char) × TextReader :=
  let r1 := skipSpNl r
  if r1.remain = [] then (none, r1)
  else
    let q := bareScan 0 r1.remain
    (some (normalize_link_destination q.1), r1.advance q.1.length)

/-- Does `remain` match `^\s*<`? -/
def wsAngleHead (s : List Char) : Bool :=
  match s.drop (countWhile isPySpace s) with
  | c :: _ => c = '<'
  | [] => false

/-- `LinkDestinationParser.parse`: when the remainder starts (after
optional whitespace) with `<`, try the angle-bracket pattern and return
the empty string if it fails to match; otherwise parse a bare
destination. -/
def LinkDestinationParser_parse (r : TextReader) : Option (List Char) × TextReader :=
  if wsAngleHead r.remain then
    match consumeAngle r with
    | none => (some [], r)
    | some (content, r2) => (some (normalize_link_destination content), r2)
  else parseBareLinkDestination r

/-! ## Title parser (`LinkTitleParser`) -/

/-- The body of one quoted-title alternative
`q(ESCAPED_CHARS|[^q])*q` for closing delimiter `q`: ordered-choice
scanning with the backtracking the Python regex engine performs (an
escape sequence is preferred; a lone backslash is retried as a plain
character when the escape reading admits no closing delimiter). -/
def titleBody (close : Char) : List Char → Option (List Char × List Char)
  | [] => none
  | [c] => if c = close then some ([], []) else none
  | c :: c2 :: rest2 =>
    if c = close then some ([], c2 :: rest2)
    else if c = bsC then
      if isPunct c2 then
        match titleBody close rest2 with
        | some q => some (c :: c2 :: q.1, q.2)
        | none => (titleBody close (c2 :: rest2)).map (fun q => (c :: q.1, q.2))
      else (titleBody close (c2 :: rest2)).map (fun q => (c :: q.1, q.2))
    else (titleBody close (c2 :: rest2)).map (fun q => (c :: q.1, q.2))

/-- The decoding `LinkTitleParser.parse` applies to a matched title:
entity-decode first, then unescape backslash escapes. -/
def LinkTitleParser_decode (s : List Char) : List Char :=
  unescape (entityDecode s)

/-- Commit a matched quoted title: decode the content and advance the
cursor past whitespace, both delimiters and the content. -/
def finishTitle (rest : List Char) (close : Char) (r : TextReader) (n : Nat) :
    Option (List Char) × TextReader :=
  match titleBody close rest with
  | some q => (some (LinkTitleParser_decode q.1), r.advance (n + 1 + q.1.length + 1))
  | none => (none, r)

/-- `LinkTitleParser.parse`: the pattern
`\s*("(ESC|[^"])*"|'(ESC|[^'])*'|\((ESC|[^)])*\))`; the matched title is
entity-decoded and then unescaped; no match returns `None` and leaves the
cursor in place. -/
def LinkTitleParser_parse (r : TextReader) : Option (List Char) × TextReader :=
  let n := countWhile isPySpace r.remain
  match r.remain.drop n with
  | c :: rest =>
    if c = dqC then finishTitle rest dqC r n
    else if c = sqC then finishTitle rest sqC r n
    else if c = '(' then finishTitle rest ')' r n
    else (none, r)
  | [] => (none, r)

/-! ## Label parser (`LinkLabelParser`) -/

/-- The body of the label pattern `(?:[^\[\]\\]|ESCAPED_CHARS|\\){0,1000}\]`:
at most `fuel` atoms (a character other than `[`, `]`, backslash; an
escape sequence; or a lone backslash), terminated by `]`, with the
ordered-choice backtracking of the Python regex engine.  Returns the
content (terminator stripped) and the rest after `]`. -/
def labelScan : Nat → List Char → Option (List Char × List Char)
  | _, [] => none
  | _, [c] => if c = ']' then some ([], []) else none
  | fuel, c :: c2 :: rest2 =>
    if c = ']' then some ([], c2 :: rest2)
    else if fuel = 0 then none
    else if c = '[' then none
    else if c = bsC then
      if isPunct c2 then
        match labelScan (fuel - 1) rest2 with
        | some q => some (c :: c2 :: q.1, q.2)
        | none => (labelScan (fuel - 1) (c2 :: rest2)).map (fun q => (c :: q.1, q.2))
      else (labelScan (fuel - 1) (c2 :: rest2)).map (fun q => (c :: q.1, q.2))
    else (labelScan (fuel - 1) (c2 :: rest2)).map (fun q => (c :: q.1, q.2))

/-- `LinkLabelParser.parse`: consume the label pattern and return the
match with the terminating `]` stripped, or `None` (cursor in place) when
the pattern does not match. -/
def LinkLabelParser_parse (r : TextReader) : Option (List Char) × TextReader :=
  match labelScan 1000 r.remain with
  | some q => (some q.1, r.advance (q.1.length + 1))
  | none => (none, r)

/-! ## Output-stream helpers (`LinkCloserProcessorBase`) -/

/-- Is this node a bracket marker with `can_open=True`? -/
def isOpenBracket : Node → Bool
  | Node.bracket _ canOpen _ _ => canOpen
  | _ => false

/-- `get_opening_brackets`: every bracket marker of the stream with
`can_open=True`, in emission order. -/
def get_opening_brackets (doc : List Node) : List Node :=
  doc.filter isOpenBracket

/-- `get_last_opening_brackets`, rendered as the index of the last
`can_open` bracket marker of the stream (object identity of a stream node
is rendered as its index). -/
def lastOpenerIdx : List Node → Option Nat
  | [] => none
  | n :: rest =>
    match lastOpenerIdx rest with
    | some i => some (i + 1)
    | none => if isOpenBracket n then some 0 else none

/-- The deactivation the resolution loop applies to one node: a
`can_open` bracket marker with marker `[` loses its `active` flag; every
other node is untouched. -/
def deactivate : Node → Node
  | Node.bracket marker canOpen active pos =>
    if canOpen && marker = ['['] then Node.bracket marker canOpen false pos
    else Node.bracket marker canOpen active pos
  | n => n

/-- Python attribute truthiness for the optional title: `None` and the
empty string are falsy. -/
def optTruthy : Option (List Char) → Option (List Char)
  | none => none
  | some s => if s = [] then none else some s

mutual

/-- Modelled from the spec: `strip_to_text` / docutils `astext` —
recursively concatenate the text content of a node, discarding markup
(bracket markers and images have no text children). -/
def Node.astext : Node → List Char
  | Node.text s => s
  | Node.bracket _ _ _ _ => []
  | Node.reference _ _ cs => astextList cs
  | Node.image _ _ _ => []

/-- Concatenated text of a list of nodes. -/
def astextList : List Node → List Char
  | [] => []
  | n :: rest => Node.astext n ++ astextList rest

end

/-- Modelled from the spec: the external `EmphasisConverter` pass resolves
emphasis delimiter runs inside the transplanted content; on streams that
contain no emphasis delimiters (the only nodes the processors modelled
here produce) it leaves the stream unchanged. -/
def emphasisConvert (content : List Node) : List Node := content

/-- `LinkCloserProcessorBase.create_node` for the opener at stream index
`i`.  Nodes strictly after the opener are transplanted (moved) into the
new node; for a link, afterwards every `can_open` bracket marker with
marker `[` still in the stream (which all precede the opener, plus the
opener itself) is deactivated.  Returns the stream after transplanting
and deactivation (the opener still at index `i`) and the new node. -/
def create_node (title destination : Option (List Char)) (doc : List Node) (i : Nat) :
    List Node × Node :=
  match doc[i]? with
  | some (Node.bracket marker _ _ _) =>
    if marker = ['!', '['] then
      let para := emphasisConvert (doc.drop (i + 1))
      let node := Node.image destination (astextList para) (optTruthy title)
      (doc.take (i + 1), node)
    else
      let node := Node.reference destination (optTruthy title) (doc.drop (i + 1))
      ((doc.take (i + 1)).map deactivate, node)
  | _ => (doc, Node.text [])

/-! ## Closer processors -/

/-- The exceptions that can escape a closer attempt: `LabelNotMatched`,
the `TypeError` of normalizing a `None` label, and a failed `assert`. -/
inductive Err where
  | labelNotMatched
  | typeErr
  | assertionErr
deriving DecidableEq, Repr

/-- Result of a processor body: the raised-or-returned outcome, the
stream and the cursor at that moment (stream mutations survive a raise,
as they do in the source). -/
def RunOut := Except Err Bool × List Node × TextReader

/-- `UnmatchedLinkCloserProcessor.run` (priority 100, no backtracking
decorator): no `can_open` marker at all makes the `]` literal text; an
inactive nearest marker is additionally rewritten in place to its literal
marker text; otherwise decline and pass to the other closer processors. -/
def unmatchedCloserRun (doc : List Node) (r : TextReader) :
    Bool × List Node × TextReader :=
  match lastOpenerIdx doc with
  | none => (true, doc ++ [Node.text [']']], r.advance 1)
  | some i =>
    match doc[i]? with
    | some (Node.bracket marker _ active _) =>
      if active then (false, doc, r)
      else (true, (doc.set i (Node.text marker)) ++ [Node.text [']']], r.advance 1)
    | _ => (false, doc, r)

/-- `LinkCloserWithDestinationProcessor.run` (pattern `](`, priority 400)
before the backtracking decorator is applied: parse destination and
title, assert the closing `\s*\)`, then build and splice the node. -/
def closerDestBody (doc : List Node) (r : TextReader) : RunOut :=
  match lastOpenerIdx doc with
  | none => (Except.ok false, doc, r)
  | some i =>
    let r1 := consume2 ']' '(' r
    let d := LinkDestinationParser_parse r1
    let t := LinkTitleParser_parse d.2
    match consumeWsClose t.2 with
    | none => (Except.error Err.assertionErr, doc, t.2)
    | some r4 =>
      let cn := create_node t.1 d.1 doc i
      (Except.ok true, (cn.1 ++ [cn.2]).eraseIdx i, r4)

/-- `LinkCloserWithLabelProcessor.parse_link_label`: parse the label; an
empty label (the collapsed form) is replaced by the raw slice
`reader[opener.position : reader.position - 2]`; then look the label up,
`LabelNotMatched` when it is absent (a `None` label crashes the
normalization, modelled as `typeErr`). -/
def parse_link_label (table : Table) (openerPos : Nat) (r : TextReader) :
    Except Err (RefTarget × TextReader) :=
  let l := LinkLabelParser_parse r
  match l.1 with
  | none => Except.error Err.typeErr
  | some refname =>
    let refname := if refname = [] then l.2.slice openerPos (l.2.position - 2) else refname
    match lookup_target table refname with
    | none => Except.error Err.labelNotMatched
    | some target => Except.ok (target, l.2)

/-- `LinkCloserWithLabelProcessor.run` (pattern `][`, priority 400)
before the backtracking decorator: on `LabelNotMatched` the opener is
rewritten in place to its literal marker text and the exception
propagates. -/
def closerLabelBody (table : Table) (doc : List Node) (r : TextReader) : RunOut :=
  match lastOpenerIdx doc with
  | none => (Except.ok false, doc, r)
  | some i =>
    match doc[i]? with
    | some (Node.bracket marker _ _ opos) =>
      let r1 := consume2 ']' '[' r
      match parse_link_label table opos r1 with
      | Except.error Err.labelNotMatched =>
        (Except.error Err.labelNotMatched, doc.set i (Node.text marker), r1)
      | Except.error e => (Except.error e, doc, r1)
      | Except.ok (target, r2) =>
        let cn := create_node target.title target.refuri doc i
        (Except.ok true, (cn.1 ++ [cn.2]).eraseIdx i, r2)
    | _ => (Except.ok false, doc, r)

/-- `LinkCloserProcessor.process_link_or_image` together with
`LinkCloserProcessor.run` (shortcut form, pattern `]`): the label is the
raw slice between the opener position and the `]`; when the lookup fails
the opener is rewritten to its literal marker text and the exception
propagates (the second `replace_self` of the outer handler raises on the
already-replaced opener; either exception reaches the backtracking
wrapper, so the net effect is the single rewrite). -/
def closerShortcutBody (table : Table) (doc : List Node) (r : TextReader) : RunOut :=
  match lastOpenerIdx doc with
  | none => (Except.ok false, doc, r)
  | some i =>
    match doc[i]? with
    | some (Node.bracket marker _ _ opos) =>
      let r1 := consumeCh ']' r
      let refid := r1.slice opos (r1.position - 1)
      match lookup_target table refid with
      | none => (Except.error Err.labelNotMatched, doc.set i (Node.text marker), r1)
      | some target =>
        let cn := create_node target.title target.refuri doc i
        (Except.ok true, (cn.1 ++ [cn.2]).eraseIdx i, r1)
    | _ => (Except.ok false, doc, r)

/-- Modelled from the spec: the `backtrack_onerror` decorator — the
attempt runs on a scratch cursor whose position is committed only on
success; a raised exception or a declined attempt reports failure with
the cursor restored, while stream mutations made before the raise
remain. -/
def backtrack (body : List Node → TextReader → RunOut) (doc : List Node)
    (r : TextReader) : Bool × List Node × TextReader :=
  match body doc r with
  | (Except.ok true, d, r2) => (true, d, r2)
  | (Except.ok false, d, _) => (false, d, r)
  | (Except.error _, d, _) => (false, d, r)

/-- Does the remaining text start with character `a`? -/
def headIs (a : Char) (r : TextReader) : Bool :=
  match r.remain with
  | c :: _ => c = a
  | [] => false

/-- Does the remaining text start with `a` then `b`? -/
def head2Is (a b : Char) (r : TextReader) : Bool :=
  match r.remain with
  | c0 :: c1 :: _ => c0 = a && c1 = b
  | _ => false

/-- Modelled from the spec: the processor dispatch ladder at a `]`,
in ascending priority order — the unmatched fast path (priority 100)
first, then the inline-destination form (`](`, 400), the reference form
(`][`, 400), and last the shortcut form (bare `]`, default priority of
the external base class).  Each processor runs only when its trigger
pattern matches, and the first one that accepts ends the dispatch. -/
def dispatchCloser (table : Table) (doc : List Node) (r : TextReader) :
    Bool × List Node × TextReader :=
  if headIs ']' r then
    match unmatchedCloserRun doc r with
    | (true, d, r2) => (true, d, r2)
    | (false, d1, rA) =>
      let step2 :=
        if head2Is ']' '(' rA then backtrack closerDestBody d1 rA
        else (false, d1, rA)
      match step2 with
      | (true, d, r2) => (true, d, r2)
      | (false, d2, rB) =>
        let step3 :=
          if head2Is ']' '[' rB then backtrack (closerLabelBody table) d2 rB
          else (false, d2, rB)
        match step3 with
        | (true, d, r2) => (true, d, r2)
        | (false, d3, rC) => backtrack (closerShortcutBody table) d3 rC
  else (false, doc, r)

/-- An atom run of the (corrected) label grammar: each atom is a
character other than `[`, `]`, backslash; an escape sequence; or a lone
backslash. `AtomRun content n` says `content` is exactly `n` atoms. -/
inductive AtomRun : List Char → Nat → Prop where
  | nil : AtomRun [] 0
  | chr : ∀ c s n, ¬c = '[' → ¬c = ']' → ¬c = bsC → AtomRun s n → AtomRun (c :: s) (n + 1)
  | esc : ∀ c s n, isPunct c = true → AtomRun s n → AtomRun (bsC :: c :: s) (n + 1)
  | bare : ∀ s n, AtomRun s n → AtomRun (bsC :: s) (n + 1)

/-- Does the run contain a bare backslash (one that does not form an
escape sequence), reading escapes left to right? -/
def hasBareBackslash : List Char → Bool
  | [] => false
  | [c] => c = bsC
  | c :: c2 :: rest =>
    if c = bsC then
      if isPunct c2 then hasBareBackslash rest else true
    else hasBareBackslash (c2 :: rest)

/-- The decode order prescribed by the spec for titles and bare
destinations: backslash-unescaping first, entity-decoding second. -/
def specClaimedDecode (s : List Char) : List Char :=
  entityDecode (unescape s)

/-- A stream that differs from `doc` only in that the nearest opener has
been rewritten in place to its literal marker text. -/
def literalizedOpener (doc d : List Node) : Prop :=
  ∃ i m co a p, lastOpenerIdx doc = some i ∧
    doc[i]? = some (Node.bracket m co a p) ∧ d = doc.set i (Node.text m)

/-- Decidable equality for `Except` values (not derived in core). -/
instance {e a : Type} [DecidableEq e] [DecidableEq a] : DecidableEq (Except e a) := fun x y =>
  match x, y with
  | Except.ok v, Except.ok w =>
    if h : v = w then isTrue (by rw [h]) else isFalse (fun hh => by cases hh; exact h rfl)
  | Except.ok _, Except.error _ => isFalse (fun h => Except.noConfusion h)
  | Except.error _, Except.ok _ => isFalse (fun h => Except.noConfusion h)
  | Except.error v, Except.error w =>
    if h : v = w then isTrue (by rw [h]) else isFalse (fun hh => by cases hh; exact h rfl)

/-! ## Theorems -/

theorem bareScan_split (p : Nat) (s : List Char) :
    (bareScan p s).1 ++ (bareScan p s).2.1 = s := by
  induction p, s using bareScan.induct <;> simp_all [bareScan] <;>
    split <;> simp_all

theorem bareScan_stop (p : Nat) (s : List Char) (c : Char) (rest : List Char)
    (h : (bareScan p s).2.1 = c :: rest) :
    c = ' ' ∨ c = Char.ofNat 10 ∨ (c = ')' ∧ (bareScan p s).2.2 = 0) := by
  induction p, s using bareScan.induct <;>
    simp only [bareScan] at h ⊢ <;> simp_all <;> (try tauto) <;>
    (try (split at h <;> simp_all)) <;> (try tauto) <;>
    (split <;> simp_all <;> (try tauto))

theorem bareScan_escape (p : Nat) (c2 : Char) (s : List Char) (h : isPunct c2 = true) :
    bareScan p (bsC :: c2 :: s) =
      (bsC :: c2 :: (bareScan p s).1, (bareScan p s).2.1, (bareScan p s).2.2) := by
  have h1 : (bsC = ' ' || bsC = Char.ofNat 10) = false := by decide
  have h2 : (bsC = '(') = False := by decide
  have h3 : (bsC = ')') = False := by decide
  cases s with
  | nil => simp [bareScan, h1, h2, h3, h]
  | cons c3 s3 => simp [bareScan, h1, h2, h3, h]

/-- **C8**: the bare-form destination parser consumes characters up to the
first space/newline or the first `)` that would take the running
parenthesis depth negative (the stop character, in particular the
terminating `)`, is not consumed and is left for the caller); an escape
sequence consumes one extra character, so its second character is never
read as a delimiter; and the inline form `[x](a(b)c)` parses the
destination `a(b)c`, with balanced parentheses included. -/
theorem C8_bare_destination_scan :
    (∀ p s, (bareScan p s).1 ++ (bareScan p s).2.1 = s)
  ∧ (∀ p s c rest, (bareScan p s).2.1 = c :: rest →
      c = ' ' ∨ c = Char.ofNat 10 ∨ (c = ')' ∧ (bareScan p s).2.2 = 0))
  ∧ (∀ p c2 s, isPunct c2 = true →
      bareScan p (bsC :: c2 :: s) =
        (bsC :: c2 :: (bareScan p s).1, (bareScan p s).2.1, (bareScan p s).2.2))
  ∧ parseBareLinkDestination ⟨"a(b)c) x".data, 0⟩ =
      (some "a(b)c".data, ⟨"a(b)c) x".data, 5⟩)
  ∧ parseBareLinkDestination ⟨['a', bsC, ')', 'b', ')', ' '], 0⟩ =
      (some ['a', ')', 'b'], ⟨['a', bsC, ')', 'b', ')', ' '], 4⟩) :=
  ⟨bareScan_split, bareScan_stop, bareScan_escape, by decide, by decide⟩

/-- Witness for `C8_bare_destination_scan` at concrete inputs. -/
theorem C8_bare_destination_scan_witness :
    ((bareScan 0 "a b".data).2.1 = [' ', 'b'] →
      (' ' = ' ' ∨ ' ' = Char.ofNat 10 ∨ (' ' = ')' ∧ (bareScan 0 "a b".data).2.2 = 0)))
  ∧ (isPunct ')' = true →
      bareScan 0 [bsC, ')', 'x'] =
        (bsC :: ')' :: (bareScan 0 ['x']).1, (bareScan 0 ['x']).2.1,
          (bareScan 0 ['x']).2.2)) :=
  ⟨fun h => C8_bare_destination_scan.2.1 0 "a b".data ' ' ['b'] h,
   fun h => C8_bare_destination_scan.2.2.1 0 ')' ['x'] h⟩

/-- **C7**: a bare-form destination parse with nothing remaining after the
optional leading spaces/newlines returns the absent destination (`None`),
which the parser keeps distinct from the empty-string destination: a
non-empty remainder always produces `some` destination, and a remainder
beginning with `)` produces `some ""`. -/
theorem C7_bare_absent_distinct :
    (∀ r : TextReader, (skipSpNl r).remain = [] →
      parseBareLinkDestination r = (none, skipSpNl r))
  ∧ (∀ r : TextReader, (skipSpNl r).remain ≠ [] →
      ∃ s, (parseBareLinkDestination r).1 = some s)
  ∧ (parseBareLinkDestination ⟨[')'], 0⟩).1 = some []
  ∧ (some ([] : List Char) ≠ (none : Option (List Char))) := by
  refine ⟨?_, ?_, by decide, by decide⟩
  · intro r h
    simp [parseBareLinkDestination, h]
  · intro r h
    simp [parseBareLinkDestination, h]

/-- Witness for `C7_bare_absent_distinct` at concrete inputs. -/
theorem C7_bare_absent_distinct_witness :
    parseBareLinkDestination ⟨[' '], 0⟩ = (none, skipSpNl ⟨[' '], 0⟩)
  ∧ ∃ s, (parseBareLinkDestination ⟨['x'], 0⟩).1 = some s :=
  ⟨C7_bare_absent_distinct.1 ⟨[' '], 0⟩ (by decide),
   C7_bare_absent_distinct.2.1 ⟨['x'], 0⟩ (by decide)⟩

/-- **C10**: when the text after `](` begins, after optional whitespace,
with `<` but the complete angle-bracket destination pattern does not
match, `LinkDestinationParser.parse` returns the empty string with the
cursor unmoved — it neither falls back to the bare form nor fails. -/
theorem C10_angle_mismatch_empty :
    (∀ r : TextReader, wsAngleHead r.remain = true → consumeAngle r = none →
      LinkDestinationParser_parse r = (some [], r))
  ∧ LinkDestinationParser_parse ⟨"<a b".data, 0⟩ = (some [], ⟨"<a b".data, 0⟩)
  ∧ (LinkDestinationParser_parse ⟨"<a>".data, 0⟩).1 = some ['a'] := by
  refine ⟨?_, by decide, by decide⟩
  intro r h1 h2
  simp [LinkDestinationParser_parse, h1, h2]

/-- Witness for `C10_angle_mismatch_empty` at a concrete input. -/
theorem C10_angle_mismatch_empty_witness :
    LinkDestinationParser_parse ⟨"xy <a b".data, 2⟩ = (some [], ⟨"xy <a b".data, 2⟩) :=
  C10_angle_mismatch_empty.1 ⟨"xy <a b".data, 2⟩ (by decide) (by decide)

theorem labelScan_sound (fuel : Nat) (s : List Char) :
    ∀ content rest, labelScan fuel s = some (content, rest) →
      s = content ++ ']' :: rest ∧ ∃ n, n ≤ fuel ∧ AtomRun content n := by
  induction fuel, s using labelScan.induct with
  | case1 p => intro content rest h; simp [labelScan] at h
  | case2 p =>
    intro content rest h
    simp [labelScan] at h
    obtain ⟨h1, h2⟩ := h
    subst h1; subst h2
    exact ⟨rfl, 0, Nat.zero_le _, AtomRun.nil⟩
  | case3 p c hc =>
    intro content rest h
    simp [labelScan, hc] at h
  | case4 p c2 s2 =>
    intro content rest h
    simp [labelScan] at h
    obtain ⟨h1, h2⟩ := h
    subst h1; subst h2
    exact ⟨rfl, 0, Nat.zero_le _, AtomRun.nil⟩
  | case5 c c2 s2 hc =>
    intro content rest h
    simp [labelScan, hc] at h
  | case6 p c2 s2 hp _ =>
    intro content rest h
    simp [labelScan, hp] at h
  | case7 p c2 s2 hp hpunct q hq _ _ ih =>
    intro content rest h
    have hb1 : ¬bsC = ']' := by decide
    have hb2 : ¬bsC = '[' := by decide
    simp [labelScan, hp, hpunct, hb1, hb2, hq] at h
    obtain ⟨h1, h2⟩ := h
    subst h1; subst h2
    obtain ⟨hs, n, hn, hrun⟩ := ih q.1 q.2 hq
    refine ⟨by simp [hs], n + 1, by omega, AtomRun.esc c2 q.1 n hpunct hrun⟩
  | case8 p c2 s2 hp hpunct hq _ _ ih1 ih2 =>
    intro content rest h
    have hb1 : ¬bsC = ']' := by decide
    have hb2 : ¬bsC = '[' := by decide
    simp [labelScan, hp, hpunct, hb1, hb2, hq] at h
    obtain ⟨a, hq2, rfl⟩ := h
    obtain ⟨hs, n, hn, hrun⟩ := ih2 a rest hq2
    exact ⟨by simp [hs], n + 1, by omega, AtomRun.bare a n hrun⟩
  | case9 p c2 s2 hp hpunct _ _ ih =>
    intro content rest h
    have hb1 : ¬bsC = ']' := by decide
    have hb2 : ¬bsC = '[' := by decide
    simp [labelScan, hp, hpunct, hb1, hb2] at h
    obtain ⟨a, hq2, rfl⟩ := h
    obtain ⟨hs, n, hn, hrun⟩ := ih a rest hq2
    exact ⟨by simp [hs], n + 1, by omega, AtomRun.bare a n hrun⟩
  | case10 p c c2 s2 hc hp hcb hcbs ih =>
    intro content rest h
    simp [labelScan, hc, hp, hcb, hcbs] at h
    obtain ⟨a, hq2, rfl⟩ := h
    obtain ⟨hs, n, hn, hrun⟩ := ih a rest hq2
    exact ⟨by simp [hs], n + 1, by omega, AtomRun.chr c a n hcb hc hcbs hrun⟩

/-- **C6, counterexample**: the claim that every character of a matched
label run is "not a bare backslash" is false — the label pattern's third
alternative `\\` accepts a lone backslash, so `a\b]` (where `\b` is not
an escape sequence) matches with content `a\b`. -/
theorem C6_counterexample :
    ¬ (∀ s content rest, labelScan 1000 s = some (content, rest) →
        hasBareBackslash content = false) := by
  intro hclaim
  have := hclaim ['a', bsC, 'b', ']'] ['a', bsC, 'b'] [] (by decide)
  simp at this
  exact absurd this (by decide)

/-- **C6, amended**: a successful label match splits the input as
`content ++ "]" ++ rest` where `content` is a run of at most `fuel`
(1000) atoms — a character other than `[`, `]`, backslash; an escape
sequence; or a lone backslash; a zero-length match is legal (the
collapsed case); and when the pattern does not match, the parser reports
failure (`None`, cursor unmoved) rather than returning an empty label. -/
theorem C6_label_grammar :
    (∀ fuel s content rest, labelScan fuel s = some (content, rest) →
      s = content ++ ']' :: rest ∧ ∃ n, n ≤ fuel ∧ AtomRun content n)
  ∧ (∀ rest, labelScan 1000 (']' :: rest) = some ([], rest))
  ∧ (∀ r : TextReader, labelScan 1000 r.remain = none →
      LinkLabelParser_parse r = (none, r)) := by
  refine ⟨fun fuel s => labelScan_sound fuel s, ?_, ?_⟩
  · intro rest
    cases rest <;> simp [labelScan]
  · intro r h
    simp [LinkLabelParser_parse, h]

/-- Witness for `C6_label_grammar` at concrete inputs. -/
theorem C6_label_grammar_witness :
    ("ab]cd".data = "ab".data ++ ']' :: "cd".data ∧
      ∃ n, n ≤ 1000 ∧ AtomRun "ab".data n)
  ∧ LinkLabelParser_parse ⟨"[x".data, 0⟩ = (none, ⟨"[x".data, 0⟩) :=
  ⟨C6_label_grammar.1 1000 "ab]cd".data "ab".data "cd".data (by decide),
   C6_label_grammar.2.2 ⟨"[x".data, 0⟩ (by decide)⟩

/-- **C5, counterexample**: the claim that titles and bare destinations
are backslash-unescaped first and entity-decoded second is false: on
`&#92;(` (a numeric reference for a backslash, followed by `(`) the
implementation decodes the entity first, yielding `\(`, and then
unescapes, yielding `(`, while the claimed order yields `\(`. -/
theorem C5_counterexample :
    LinkTitleParser_decode "&#92;(".data ≠ specClaimedDecode "&#92;(".data
  ∧ (LinkTitleParser_parse ⟨[dqC] ++ "&#92;(".data ++ [dqC], 0⟩).1 = some "(".data
  ∧ (LinkDestinationParser_parse ⟨"&#92;( ".data, 0⟩).1 = some "(".data := by
  refine ⟨by decide, by decide, by decide⟩

/-- **C5, amended**: every decode in the module applies entity-decoding
first and backslash-unescaping second; both destination forms (angle
bracket and bare, which share `normalize_link_destination`) additionally
URI-normalize last. -/
theorem C5_decode_order :
    (∀ s, LinkTitleParser_decode s = unescape (entityDecode s))
  ∧ (∀ s, normalize_link_destination s = normalize_uri (unescape (entityDecode s)))
  ∧ (LinkTitleParser_parse ⟨[dqC] ++ "&#92;(".data ++ [dqC], 0⟩).1 =
      some (unescape (entityDecode "&#92;(".data))
  ∧ (LinkDestinationParser_parse ⟨"&#92;( ".data, 0⟩).1 =
      some (normalize_uri (unescape (entityDecode "&#92;(".data))) :=
  ⟨fun _ => rfl, fun _ => rfl, by decide, by decide⟩

/-- **C9**: with `foo` defined as `/x` in the reference table, the
shortcut input `[foo]` resolves to a reference node, but the collapsed
input `[foo][]` does NOT resolve at all: the collapsed branch recovers
the label as `reader[opener.position : reader.position - 2]`, and after
the label parser has consumed the final `]` this slice is `foo]` — it
includes the closing bracket of the first label — so the lookup fails,
the opener is literalized and the whole attempt fails, where the
CommonMark behaviour the spec states requires `[foo][]` to resolve
identically to `[foo]`. -/
theorem C9_collapsed_reference_bug :
    dispatchCloser [("foo".data, ⟨some "/x".data, none⟩)]
        [Node.bracket ['['] true true 1, Node.text "foo".data] ⟨"[foo][]".data, 4⟩ =
      (false, [Node.text ['['], Node.text "foo".data], ⟨"[foo][]".data, 4⟩)
  ∧ dispatchCloser [("foo".data, ⟨some "/x".data, none⟩)]
        [Node.bracket ['['] true true 1, Node.text "foo".data] ⟨"[foo]".data, 4⟩ =
      (true, [Node.reference (some "/x".data) none [Node.text "foo".data]],
        ⟨"[foo]".data, 5⟩)
  ∧ TextReader.slice ⟨"[foo][]".data, 7⟩ 1 (7 - 2) = "foo]".data
  ∧ lookup_target [("foo".data, ⟨some "/x".data, none⟩)] "foo]".data = none := by
  refine ⟨by decide, by decide, by decide, by decide⟩

/-- **C1**: when a link (opener marker `[`) is resolved, `create_node`
deactivates every `can_open` bracket marker with marker `[` that precedes
the opener in the output stream, while `![` markers keep their `active`
flag; and resolving an image (opener marker `![`) deactivates no markers
at all — the stream up to the opener is returned unchanged. -/
theorem C1_link_deactivation :
    (∀ title dest doc i act p, doc[i]? = some (Node.bracket ['['] true act p) →
      ∀ j m co a q, j < i → doc[j]? = some (Node.bracket m co a q) →
        (create_node title dest doc i).1[j]? =
          some (Node.bracket m co (if co && m = ['['] then false else a) q))
  ∧ (∀ title dest doc i act p, doc[i]? = some (Node.bracket ['!', '['] true act p) →
      (create_node title dest doc i).1 = doc.take (i + 1)) := by
  constructor
  · intro title dest doc i act p hb j m co a q hj hbj
    simp only [create_node, hb]
    rw [if_neg (by decide)]
    simp only [List.getElem?_map, List.getElem?_take]
    rw [if_pos (by omega), hbj]
    simp [deactivate]
    split <;> cases co <;> simp_all
  · intro title dest doc i act p hb
    simp [create_node, hb]

/-- Witness for `C1_link_deactivation` at a concrete stream. -/
theorem C1_link_deactivation_witness :
    (create_node none (some ['u'])
        [Node.bracket ['['] true true 0, Node.bracket ['!', '['] true true 2,
          Node.bracket ['['] true true 5] 2).1[0]? =
      some (Node.bracket ['['] true
        (if true && (['['] : List Char) = ['['] then false else true) 0)
  ∧ (create_node none (some ['u'])
        [Node.bracket ['['] true true 0, Node.bracket ['!', '['] true true 2,
          Node.bracket ['['] true true 5] 2).1[1]? =
      some (Node.bracket ['!', '['] true
        (if true && (['!', '['] : List Char) = ['['] then false else true) 2)
  ∧ (create_node none none
        [Node.bracket ['['] true true 0, Node.bracket ['!', '['] true true 2] 1).1 =
      [Node.bracket ['['] true true 0, Node.bracket ['!', '['] true true 2].take 2 :=
  ⟨C1_link_deactivation.1 none (some ['u']) _ 2 true 5 (by decide) 0 ['['] true true 0
      (by omega) (by decide),
   C1_link_deactivation.1 none (some ['u']) _ 2 true 5 (by decide) 1 ['!', '['] true true 2
      (by omega) (by decide),
   C1_link_deactivation.2 none none _ 1 true 2 (by decide)⟩

/-- **C3**: at a `]`, the unmatched-bracket fast path is dispatched ahead
of every other closer handler: whenever it accepts, its output is the
whole dispatch output (no other handler runs); it accepts by emitting a
literal `]` when the stream holds no `can_open` bracket marker, and by
additionally literalizing the nearest such marker in place when that
marker is inactive. -/
theorem C3_fast_path_priority (table : Table) (doc : List Node) (r : TextReader)
    (hhead : headIs ']' r = true) :
    (∀ d rr, unmatchedCloserRun doc r = (true, d, rr) →
      dispatchCloser table doc r = (true, d, rr))
  ∧ (lastOpenerIdx doc = none →
      dispatchCloser table doc r = (true, doc ++ [Node.text [']']], r.advance 1))
  ∧ (∀ i m co opos, lastOpenerIdx doc = some i →
      doc[i]? = some (Node.bracket m co false opos) →
      dispatchCloser table doc r =
        (true, doc.set i (Node.text m) ++ [Node.text [']']], r.advance 1)) := by
  refine ⟨?_, ?_, ?_⟩
  · intro d rr h
    simp [dispatchCloser, hhead, h]
  · intro h
    have hu : unmatchedCloserRun doc r = (true, doc ++ [Node.text [']']], r.advance 1) := by
      simp [unmatchedCloserRun, h]
    simp [dispatchCloser, hhead, hu]
  · intro i m co opos h1 h2
    have hu : unmatchedCloserRun doc r =
        (true, doc.set i (Node.text m) ++ [Node.text [']']], r.advance 1) := by
      simp [unmatchedCloserRun, h1, h2]
    simp [dispatchCloser, hhead, hu]

/-- Witness for `C3_fast_path_priority` at concrete streams. -/
theorem C3_fast_path_priority_witness :
    dispatchCloser [] [Node.text ['x']] ⟨"x] y".data, 1⟩ =
      (true, [Node.text ['x']] ++ [Node.text [']']], TextReader.advance ⟨"x] y".data, 1⟩ 1)
  ∧ dispatchCloser [] [Node.bracket ['['] true false 1] ⟨"[a]".data, 2⟩ =
      (true, [Node.bracket ['['] true false 1].set 0 (Node.text ['[']) ++ [Node.text [']']],
        TextReader.advance ⟨"[a]".data, 2⟩ 1) :=
  ⟨(C3_fast_path_priority [] [Node.text ['x']] ⟨"x] y".data, 1⟩ (by decide)).2.1 (by decide),
   (C3_fast_path_priority [] [Node.bracket ['['] true false 1] ⟨"[a]".data, 2⟩
      (by decide)).2.2 0 ['['] true 1 (by decide) (by decide)⟩

/-- **C4**: a reference-form or shortcut-form closer attempt whose label
is not found in the reference table rewrites the opener marker in place
to its literal marker text, reports the attempt as failed with the cursor
restored (so the `]` is left for a later pass, and no error is
surfaced — the exception is absorbed by the backtracking wrapper), and
leaves every other stream node unchanged. -/
theorem C4_unresolved_label_literalizes (table : Table) (doc : List Node) (r : TextReader)
    (i : Nat) (m : List Char) (co a : Bool) (opos : Nat)
    (hidx : lastOpenerIdx doc = some i)
    (hbr : doc[i]? = some (Node.bracket m co a opos)) :
    (lookup_target table
        ((consumeCh ']' r).slice opos ((consumeCh ']' r).position - 1)) = none →
      backtrack (closerShortcutBody table) doc r = (false, doc.set i (Node.text m), r))
  ∧ (parse_link_label table opos (consume2 ']' '[' r) = Except.error Err.labelNotMatched →
      backtrack (closerLabelBody table) doc r = (false, doc.set i (Node.text m), r))
  ∧ (∀ j, j ≠ i → (doc.set i (Node.text m))[j]? = doc[j]?) := by
  refine ⟨?_, ?_, ?_⟩
  · intro h
    simp [backtrack, closerShortcutBody, hidx, hbr, h]
  · intro h
    simp [backtrack, closerLabelBody, hidx, hbr, h]
  · intro j hj
    exact List.getElem?_set_ne (Ne.symm hj)

/-- Witness for `C4_unresolved_label_literalizes` at a concrete input
(empty reference table, stream `[` `a`, cursor at the `]`). -/
theorem C4_unresolved_label_literalizes_witness :
    backtrack (closerShortcutBody []) [Node.bracket ['['] true true 1, Node.text ['a']]
        ⟨"[a]".data, 2⟩ =
      (false, [Node.bracket ['['] true true 1, Node.text ['a']].set 0 (Node.text ['[']),
        ⟨"[a]".data, 2⟩)
  ∧ backtrack (closerLabelBody []) [Node.bracket ['['] true true 1, Node.text ['a']]
        ⟨"[a]".data, 2⟩ =
      (false, [Node.bracket ['['] true true 1, Node.text ['a']].set 0 (Node.text ['[']),
        ⟨"[a]".data, 2⟩)
  ∧ ([Node.bracket ['['] true true 1, Node.text ['a']].set 0 (Node.text ['[']))[1]? =
      [Node.bracket ['['] true true 1, Node.text ['a']][1]? :=
  ⟨(C4_unresolved_label_literalizes [] _ ⟨"[a]".data, 2⟩ 0 ['['] true true 1
      (by decide) (by decide)).1 (by decide),
   (C4_unresolved_label_literalizes [] _ ⟨"[a]".data, 2⟩ 0 ['['] true true 1
      (by decide) (by decide)).2.1 (by decide),
   (C4_unresolved_label_literalizes [] _ ⟨"[a]".data, 2⟩ 0 ['['] true true 1
      (by decide) (by decide)).2.2 1 (by omega)⟩

theorem C2_frame (table : Table) (doc : List Node) (r : TextReader) :
    ((unmatchedCloserRun doc r).1 = false → unmatchedCloserRun doc r = (false, doc, r))
  ∧ ((backtrack closerDestBody doc r).1 = false →
      backtrack closerDestBody doc r = (false, doc, r))
  ∧ ((backtrack (closerLabelBody table) doc r).1 = false →
      (backtrack (closerLabelBody table) doc r).2.2 = r ∧
      ((backtrack (closerLabelBody table) doc r).2.1 = doc ∨
        literalizedOpener doc (backtrack (closerLabelBody table) doc r).2.1))
  ∧ ((backtrack (closerShortcutBody table) doc r).1 = false →
      (backtrack (closerShortcutBody table) doc r).2.2 = r ∧
      ((backtrack (closerShortcutBody table) doc r).2.1 = doc ∨
        literalizedOpener doc (backtrack (closerShortcutBody table) doc r).2.1)) := by
  refine ⟨?_, ?_, ?_, ?_⟩
  · intro h
    cases h1 : lastOpenerIdx doc with
    | none => simp [unmatchedCloserRun, h1] at h ⊢
    | some i =>
      cases h2 : doc[i]? with
      | none => simp [unmatchedCloserRun, h1, h2]
      | some n =>
        cases n <;> simp [unmatchedCloserRun, h1, h2] at h ⊢
        rename_i marker co act pos
        cases act <;> simp_all [unmatchedCloserRun, h1, h2]
  · intro h
    cases h1 : lastOpenerIdx doc with
    | none => simp [backtrack, closerDestBody, h1]
    | some i =>
      cases h3 : consumeWsClose
          (LinkTitleParser_parse
            (LinkDestinationParser_parse (consume2 ']' '(' r)).2).2 with
      | none => simp [backtrack, closerDestBody, h1, h3]
      | some r4 =>
        exfalso
        simp [backtrack, closerDestBody, h1, h3] at h
  · intro h
    cases h1 : lastOpenerIdx doc with
    | none => simp [backtrack, closerLabelBody, h1]
    | some i =>
      cases h2 : doc[i]? with
      | none => simp [backtrack, closerLabelBody, h1, h2]
      | some n =>
        cases n <;> try simp [backtrack, closerLabelBody, h1, h2]
        rename_i marker co act pos
        cases h3 : parse_link_label table pos (consume2 ']' '[' r) with
        | ok v =>
          exfalso
          simp [backtrack, closerLabelBody, h1, h2, h3] at h
        | error e =>
          cases e with
          | labelNotMatched =>
            refine ⟨by simp [backtrack, closerLabelBody, h1, h2, h3], Or.inr ?_⟩
            refine ⟨i, marker, co, act, pos, h1, h2, ?_⟩
            simp [backtrack, closerLabelBody, h1, h2, h3]
          | typeErr => simp [backtrack, closerLabelBody, h1, h2, h3]
          | assertionErr => simp [backtrack, closerLabelBody, h1, h2, h3]
  · intro h
    cases h1 : lastOpenerIdx doc with
    | none => simp [backtrack, closerShortcutBody, h1]
    | some i =>
      cases h2 : doc[i]? with
      | none => simp [backtrack, closerShortcutBody, h1, h2]
      | some n =>
        cases n <;> try simp [backtrack, closerShortcutBody, h1, h2]
        rename_i marker co act pos
        cases h3 : lookup_target table
            ((consumeCh ']' r).slice pos ((consumeCh ']' r).position - 1)) with
        | none =>
          refine ⟨by simp [backtrack, closerShortcutBody, h1, h2, h3], Or.inr ?_⟩
          refine ⟨i, marker, co, act, pos, h1, h2, ?_⟩
          simp [backtrack, closerShortcutBody, h1, h2, h3]
        | some target =>
          exfalso
          simp [backtrack, closerShortcutBody, h1, h2, h3] at h

/-- Witness for `C2_frame` at a concrete failing input (stream with one
active opener, empty table, cursor at the `]`). -/
theorem C2_frame_witness :
    unmatchedCloserRun [Node.bracket ['['] true true 1] ⟨"[a]".data, 2⟩ =
      (false, [Node.bracket ['['] true true 1], ⟨"[a]".data, 2⟩)
  ∧ backtrack closerDestBody [Node.bracket ['['] true true 1] ⟨"[a]".data, 2⟩ =
      (false, [Node.bracket ['['] true true 1], ⟨"[a]".data, 2⟩)
  ∧ ((backtrack (closerLabelBody []) [Node.bracket ['['] true true 1]
          ⟨"[a]".data, 2⟩).2.2 = ⟨"[a]".data, 2⟩ ∧
      ((backtrack (closerLabelBody []) [Node.bracket ['['] true true 1]
          ⟨"[a]".data, 2⟩).2.1 = [Node.bracket ['['] true true 1] ∨
        literalizedOpener [Node.bracket ['['] true true 1]
          (backtrack (closerLabelBody []) [Node.bracket ['['] true true 1]
            ⟨"[a]".data, 2⟩).2.1))
  ∧ ((backtrack (closerShortcutBody []) [Node.bracket ['['] true true 1]
          ⟨"[a]".data, 2⟩).2.2 = ⟨"[a]".data, 2⟩ ∧
      ((backtrack (closerShortcutBody []) [Node.bracket ['['] true true 1]
          ⟨"[a]".data, 2⟩).2.1 = [Node.bracket ['['] true true 1] ∨
        literalizedOpener [Node.bracket ['['] true true 1]
          (backtrack (closerShortcutBody []) [Node.bracket ['['] true true 1]
            ⟨"[a]".data, 2⟩).2.1)) :=
  ⟨(C2_frame [] [Node.bracket ['['] true true 1] ⟨"[a]".data, 2⟩).1 (by decide),
   (C2_frame [] [Node.bracket ['['] true true 1] ⟨"[a]".data, 2⟩).2.1 (by decide),
   (C2_frame [] [Node.bracket ['['] true true 1] ⟨"[a]".data, 2⟩).2.2.1 (by decide),
   (C2_frame [] [Node.bracket ['['] true true 1] ⟨"[a]".data, 2⟩).2.2.2 (by decide)⟩

/-- **C2, counterexample**: a failed closer attempt does NOT always leave
the output stream unchanged: a shortcut attempt on stream `[` `a` with an
empty reference table fails (result `false`, cursor restored), yet the
opener bracket has been rewritten to the literal text `[`. -/
theorem C2_counterexample :
    backtrack (closerShortcutBody []) [Node.bracket ['['] true true 1, Node.text ['a']]
        ⟨"[a]".data, 2⟩ =
      (false, [Node.text ['['], Node.text ['a']], ⟨"[a]".data, 2⟩)
  ∧ ([Node.text ['['], Node.text ['a']] : List Node) ≠
      [Node.bracket ['['] true true 1, Node.text ['a']] :=
  ⟨by decide, by decide⟩
